import Mathlib

/-!
Shallow embedding of the `ask-about-repo` codebase-navigation toolkit and
repository cache manager (source: `src/mastra/tools/codebase-tools.ts`, the
workflow file, and the documentation tools module), together with theorems
settling the specification claims about them.

Strings are modelled by Lean `String`; the JavaScript string operations used
by the source (split on a single character, trim, toLowerCase, includes,
slice) are implemented over `String.data` so that all definitions compute by
kernel reduction.  JS string length counts UTF-16 units while Lean counts
characters; the difference is immaterial to every claim treated here.
-/

namespace AskAboutRepo

/-! ## JavaScript string primitives -/

/-- Splits a character list at every character satisfying `p`
(the semantics of JS `String.prototype.split` with a single-character
separator, and of splitting on a character class): every separator
occurrence produces a boundary, so adjacent separators yield empty
fields. -/
def splitCharAux (p : Char → Bool) : List Char → List Char → List (List Char)
  | [], acc => [acc.reverse]
  | c :: cs, acc =>
      if p c then acc.reverse :: splitCharAux p cs []
      else splitCharAux p cs (c :: acc)

/-- JS `s.split(sep)` for a one-character separator `sep`. -/
def splitChar (sep : Char) (s : String) : List String :=
  (splitCharAux (fun c => c = sep) s.data []).map String.mk

/-- JS `s.split(p)` for a character-class test `p` (one boundary per
matching character). -/
def splitPred (p : Char → Bool) (s : String) : List String :=
  (splitCharAux p s.data []).map String.mk

/-- JS `String.prototype.trim`. -/
def jsTrim (s : String) : String :=
  String.mk (((s.data.dropWhile Char.isWhitespace).reverse.dropWhile
    Char.isWhitespace).reverse)

/-- JS `String.prototype.toLowerCase` (character-wise lowering). -/
def jsToLower (s : String) : String :=
  String.mk (s.data.map Char.toLower)

/-- JS `a.includes(b)`: `b` occurs as a contiguous substring of `a`. -/
def jsIncludes (s sub : String) : Bool :=
  decide (sub.data <:+: s.data)

/-- JS `s.slice(0, n)` (the only slice form the source uses on strings). -/
def jsTake (n : Nat) (s : String) : String :=
  String.mk (s.data.take n)

/-- JS `s.startsWith(p)` restricted to what `path.isAbsolute` needs. -/
def isAbsolutePath (p : String) : Bool :=
  decide (p.data.head? = some '/')

/-- `path.join(a, b)` for the arguments arising in the source, where `b`
never contains `..` segments, so joining is plain concatenation with a
separator. -/
def pathJoin (a b : String) : String :=
  a ++ "/" ++ b

/-- `path.resolve(searchDir, f)`: an absolute `f` is returned unchanged,
otherwise it is joined onto `searchDir` (normalisation is the identity for
the backend outputs arising here). -/
def pathResolve (base f : String) : String :=
  if isAbsolutePath f then f else pathJoin base f

/-- `path.relative(searchDir, f)` for the case produced by this code, where
`f` is `searchDir ++ "/" ++ rest`; other inputs are returned unchanged. -/
def pathRelative (base p : String) : String :=
  if (base ++ "/").data.isPrefixOf p.data then
    String.mk (p.data.drop (base ++ "/").length)
  else p

/-- Removes the first occurrence of character `c` — the semantics of JS
`s.replace("/", "")`, whose string pattern replaces only the first match. -/
def removeFirstChar (c : Char) : List Char → List Char
  | [] => []
  | x :: xs => if x = c then xs else x :: removeFirstChar c xs

/-- JS `ignore.replace("/", "")`. -/
def stripSlash (s : String) : String :=
  String.mk (removeFirstChar '/' s.data)

/-- JS `parseInt(s, 10) || 0` on the digit strings produced by the search
backends: the value of the leading decimal-digit prefix, `0` when there is
none. -/
def jsParseIntD (s : String) : Nat :=
  (s.data.takeWhile Char.isDigit).foldl (fun n c => n * 10 + (c.toNat - 48)) 0

/-- JS `xs.join(sep)` for a one-character separator. -/
def joinWith (sep : Char) : List String → String
  | [] => ""
  | [x] => x
  | x :: y :: rest => x ++ String.mk [sep] ++ joinWith sep (y :: rest)

/-! ## Shared constants and backend-outcome model -/

/-- `IGNORE_PATTERNS` from `codebase-tools.ts`. -/
def IGNORE_PATTERNS : List String :=
  ["node_modules/", "__pycache__/", ".git/", "dist/", "build/", "target/",
   "vendor/", "bin/", "obj/", ".idea/", ".vscode/", ".zig-cache/", "zig-out",
   ".coverage", "coverage/", "tmp/", "temp/", ".cache/", "cache/", "logs/",
   ".venv/", "venv/", "env/"]

/-- `DEFAULT_READ_LIMIT` from `codebase-tools.ts`. -/
def DEFAULT_READ_LIMIT : Nat := 2000

/-- `MAX_LINE_LENGTH` from `codebase-tools.ts`. -/
def MAX_LINE_LENGTH : Nat := 2000

/-- The value returned by a `spawnSync` call that did not throw: the exit
status (`none` models JS `status: null`, e.g. when the binary could not be
spawned) and the captured standard output (`""` models falsy stdout). -/
structure SpawnRes where
  status : Option Int
  stdout : String
deriving DecidableEq, Repr

/-! ## globTool -/

/-- Parsing of the primary (ripgrep `--files`) stdout in `globTool`:
`result.stdout.trim().split("\n").filter(f => f.length > 0)` mapped through
`path.resolve(searchDir, f)`. -/
def parseRgFilesStdout (searchDir out : String) : List String :=
  (((splitChar '\n' (jsTrim out)).filter (fun f => f.length > 0)).map
    (pathResolve searchDir))

/-- Parsing of the fallback (`find`) stdout in `globTool`. -/
def parseFindStdout (out : String) : List String :=
  (splitChar '\n' (jsTrim out)).filter (fun f => f.length > 0)

/-- The raw file list `files` computed by `globTool` before ignore
filtering.  The primary `spawnSync("rg", ...)` call sits inside a
`try`/`catch`: `primary` is `.ok r` when the call returned a result record
`r` and `.error ()` when it threw, in which case — and only then — the
`find` fallback in the `catch` block runs. -/
def globRawFiles (searchDir : String) (primary : Except Unit SpawnRes)
    (findRes : SpawnRes) : List String :=
  match primary with
  | .ok r =>
      if r.status = some 0 ∧ r.stdout ≠ "" then parseRgFilesStdout searchDir r.stdout
      else []
  | .error _ =>
      if findRes.status = some 0 ∧ findRes.stdout ≠ "" then parseFindStdout findRes.stdout
      else []

/-- The ignore filter in `globTool`: drop files whose path relative to the
search directory contains any ignore pattern (with its first `/`
removed). -/
def globIgnoreFilter (searchDir : String) (files : List String) : List String :=
  files.filter (fun f =>
    ¬ IGNORE_PATTERNS.any (fun ig => jsIncludes (pathRelative searchDir f) (stripSlash ig)))

/-- Result record of `globTool`. -/
structure GlobOutput where
  files : List String
  count : Nat
  truncated : Bool
deriving DecidableEq, Repr

/-- The tail of `globTool` after the raw file list is obtained: ignore
filtering, taking the first `limit * 2 = 200` files, stably sorting by
modification time descending (`filesWithMtime.sort((a, b) => b.mtime -
a.mtime)`), computing `truncated` from the pre-cap length, and capping at
`limit = 100`.  `mtime` is the per-path modification time; the
`fs.statSync` failure branch (mtime `0`) is folded into this function. -/
def globPipeline (searchDir : String) (mtime : String → Int)
    (raw : List String) : GlobOutput :=
  let files := globIgnoreFilter searchDir raw
  let filesWithMtime := files.take (100 * 2)
  let sorted := filesWithMtime.mergeSort (fun a b => decide (mtime b ≤ mtime a))
  let truncated := decide (sorted.length > 100)
  let finalFiles := sorted.take 100
  ⟨finalFiles, finalFiles.length, truncated⟩

/-- The whole `globTool.execute` body: the outer `try`/`catch` returns the
empty result on any thrown error (`outcome = .error ()`); otherwise the
pipeline runs on the raw files determined by the two backend outcomes. -/
def globExecute (searchDir : String) (mtime : String → Int)
    (outcome : Except Unit (Except Unit SpawnRes × SpawnRes)) : GlobOutput :=
  match outcome with
  | .error _ => ⟨[], 0, false⟩
  | .ok (primary, findRes) =>
      globPipeline searchDir mtime (globRawFiles searchDir primary findRes)

/-! ## grepTool -/

/-- One match record in `grepTool`'s output. -/
structure GrepMatch where
  file : String
  line : Nat
  content : String
deriving DecidableEq, Repr

/-- Result record of `grepTool`. -/
structure GrepOutput where
  «matches» : List GrepMatch
  count : Nat
  truncated : Bool
deriving DecidableEq, Repr

/-- The argument list `grepTool` builds for the primary ripgrep
invocation: base flags, the optional `include` glob, one exclusion glob
per ignore pattern, and the search directory. -/
def rgGrepArgs (pattern : String) (include? : Option String)
    (searchDir : String) : List String :=
  ["-n", "-H", "--field-match-separator=|", "--regexp", pattern]
    ++ (match include? with
        | some inc => ["--glob", inc]
        | none => [])
    ++ (IGNORE_PATTERNS.flatMap (fun ig => ["--glob", "!" ++ ig ++ "*"]))
    ++ [searchDir]

/-- The argument list `grepTool` builds for the fallback `grep`
invocation: `-rn -E pattern`, the optional `--include` filter, and the
search directory — no ignore-pattern exclusions. -/
def grepFallbackArgs (pattern : String) (include? : Option String)
    (searchDir : String) : List String :=
  ["-rn", "-E", pattern]
    ++ (match include? with
        | some inc => ["--include", inc]
        | none => [])
    ++ [searchDir]

/-- Destructuring `const [filePath, lineNum, ...rest] = line.split(sep)`
followed by `{file, line: parseInt(lineNum, 10) || 0, content:
rest.join(sep).slice(0, MAX_LINE_LENGTH)}`, shared by both parse paths of
`grepTool` (`sep` is `":"` on the fallback path and `"|"` on the primary
path). -/
def parseMatchLine (sep : Char) (line : String) : GrepMatch :=
  match splitChar sep line with
  | [] => ⟨"", 0, ""⟩
  | [f] => ⟨f, 0, ""⟩
  | f :: n :: rest => ⟨f, jsParseIntD n, jsTake MAX_LINE_LENGTH (joinWith sep rest)⟩

/-- The fallback branch of `grepTool`: when `grep`'s stdout is falsy the
result is empty; otherwise its lines are parsed on `":"`, capped at 100,
with `truncated` from the pre-cap line count.  The fallback never consults
`grep`'s exit status and applies no modification-time sort. -/
def grepFallbackCompute (grepRes : SpawnRes) : GrepOutput :=
  if grepRes.stdout = "" then ⟨[], 0, false⟩
  else
    let lines := (splitChar '\n' (jsTrim grepRes.stdout)).filter (fun l => l ≠ "")
    let ms := (lines.take 100).map (parseMatchLine ':')
    ⟨ms, ms.length, decide (lines.length > 100)⟩

/-- The primary-success branch of `grepTool`: ripgrep stdout lines parsed
on `"|"`, sorted by the containing file's modification time descending,
capped at 100. -/
def grepPrimaryCompute (mtime : String → Int) (out : String) : GrepOutput :=
  let lines := (splitChar '\n' (jsTrim out)).filter (fun l => l ≠ "")
  let ms := lines.map (parseMatchLine '|')
  let sorted := ms.mergeSort (fun a b => decide (mtime b.file ≤ mtime a.file))
  ⟨sorted.take 100, (sorted.take 100).length, decide (sorted.length > 100)⟩

/-- The `grepTool.execute` body as a function of the two backend
outcomes: ripgrep exit status `1` is the no-matches empty result; any
other non-`0` status (including the `null` status of an unavailable
binary) routes to the `grep` fallback; status `0` parses ripgrep's
output. -/
def grepExecute (mtime : String → Int) (rgRes grepRes : SpawnRes) : GrepOutput :=
  if rgRes.status = some 1 then ⟨[], 0, false⟩
  else if rgRes.status ≠ some 0 then grepFallbackCompute grepRes
  else grepPrimaryCompute mtime rgRes.stdout

/-! ## readTool -/

/-- The filesystem view consumed by `readTool`: existence of a path, the
entries of a directory (`fs.readdirSync`), a file's byte size
(`stats.size`) and its text content (`fs.readFileSync(..., "utf-8")`). -/
structure ReadFS where
  existsSync : String → Bool
  readdirSync : String → List String
  statSize : String → Nat
  readFileSync : String → String

/-- `path.basename` for the paths `readTool` receives (no trailing
separator). -/
def pathBasename (p : String) : String :=
  ((splitChar '/' p).getLast?).getD p

/-- `path.dirname` for the paths `readTool` receives: everything before
the last separator, `"."` when there is none. -/
def pathDirname (p : String) : String :=
  match (splitChar '/' p).dropLast with
  | [] => "."
  | [""] => "/"
  | parts => joinWith '/' parts

/-- Hard failures thrown by `readTool`: `NotFound` (carrying the at most
three sibling suggestions, `[]` when none or when the directory itself is
missing) and `TooLarge` for files over the 10 MB ceiling. -/
inductive ReadError where
  | notFound (filePath : String) (suggestions : List String)
  | tooLarge (sizeBytes : Nat)
deriving DecidableEq, Repr

/-- Success record of `readTool`. -/
structure ReadOutput where
  content : String
  totalLines : Nat
  hasMore : Bool
deriving DecidableEq, Repr

/-- `fileContent.split("\n")` — the line list of a file's content; never
empty. -/
def fileLines (content : String) : List String :=
  splitChar '\n' content

/-- Per-line truncation in `readTool`: lines longer than
`MAX_LINE_LENGTH` are cut and marked with `"..."`. -/
def truncLine (line : String) : String :=
  if line.length > MAX_LINE_LENGTH then jsTake MAX_LINE_LENGTH line ++ "..." else line

/-- `lines.slice(offset, offset + limit)` mapped through per-line
truncation — the window `readTool` returns. -/
def selectedLines (lines : List String) (offset limit : Nat) : List String :=
  ((lines.drop offset).take limit).map truncLine

/-- `(index + offset + 1).toString().padStart(5, "0")`. -/
def padLineNum (n : Nat) : String :=
  let s := toString n
  if s.length < 5 then String.mk (List.replicate (5 - s.length) '0') ++ s else s

/-- The numbered display block built from the selected lines. -/
def renderNumbered (offset : Nat) (sel : List String) : String :=
  joinWith '\n'
    (sel.enum.map (fun p => padLineNum (p.1 + offset + 1) ++ "| " ++ p.2))

/-- The `<file>`-wrapped output text of `readTool`, including the
more-lines instruction or the end-of-file marker. -/
def renderReadOutput (offset : Nat) (sel : List String) (totalLines : Nat)
    (hasMore : Bool) : String :=
  "<file>\n" ++ renderNumbered offset sel
    ++ (if hasMore then
          "\n\n(File has more lines. Use 'offset' parameter to read beyond line "
            ++ toString (offset + sel.length) ++ ")"
        else "\n\n(End of file - total " ++ toString totalLines ++ " lines)")
    ++ "\n</file>"

/-- Sibling-suggestion computation for a missing file: entries of the
containing directory whose lowercased name contains the lowercased
requested base name or vice versa, capped at 3 and joined onto the
directory. -/
def readSuggestions (fs : ReadFS) (dir base : String) : List String :=
  (((fs.readdirSync dir).filter (fun entry =>
      jsIncludes (jsToLower entry) base || jsIncludes base (jsToLower entry))).take 3).map
    (pathJoin dir)

/-- The `readTool.execute` body: relative paths are resolved against the
working directory, a missing file is a hard `NotFound` error carrying the
sibling suggestions (empty when the directory is missing too), a file
over 10 MB is a hard `TooLarge` error, and otherwise the selected window
is returned with `totalLines` and `hasMore`. -/
def readTool (fs : ReadFS) (cwd filePath : String) (offset limit : Nat) :
    Except ReadError ReadOutput :=
  let resolved := if isAbsolutePath filePath then filePath else pathJoin cwd filePath
  if fs.existsSync resolved = false then
    let dir := pathDirname resolved
    let base := jsToLower (pathBasename resolved)
    if fs.existsSync dir then .error (.notFound resolved (readSuggestions fs dir base))
    else .error (.notFound resolved [])
  else if fs.statSize resolved > 10 * 1024 * 1024 then
    .error (.tooLarge (fs.statSize resolved))
  else
    let lines := fileLines (fs.readFileSync resolved)
    let totalLines := lines.length
    let sel := selectedLines lines offset limit
    let hasMore := decide (totalLines > offset + sel.length)
    .ok ⟨renderReadOutput offset sel totalLines hasMore, totalLines, hasMore⟩

/-! ## listTool -/

/-- Result record of `listTool`.  The source renders the retained files
into a tree string; the `files` field here is the retained list the tree
is built from (the rendering itself decides no claim and is not
modelled). -/
structure ListOutput where
  files : List String
  fileCount : Nat
  truncated : Bool
deriving DecidableEq, Repr

/-- The tail of `listTool` once the backend's qualifying file list is in
hand: `files = candidates.slice(0, limit)`, `fileCount = files.length`,
`truncated = files.length >= limit` with `limit = 100`. -/
def listFromCandidates (candidates : List String) : ListOutput :=
  let files := candidates.take 100
  ⟨files, files.length, decide (files.length ≥ 100)⟩

/-- The `listTool.execute` body as a function of the `find` backend
outcome: on exit status `0` with truthy stdout the newline-split list is
processed, otherwise the file list is empty. -/
def listExecute (findRes : SpawnRes) : ListOutput :=
  if findRes.status = some 0 ∧ findRes.stdout ≠ "" then
    listFromCandidates
      ((splitChar '\n' (jsTrim findRes.stdout)).filter (fun f => f.length > 0))
  else listFromCandidates []

/-! ## Repository cache manager (workflow file) -/

/-- `REPOS_DIR = path.join(process.cwd(), "../../.repos")` — a directory
constant fixed for the process; its exact value is irrelevant to the
identity claims, only its constancy matters. -/
def REPOS_DIR : String := ".repos"

/-- `getRepoIdentifier`: strip a trailing `".git"`, split the URL on `/`
and `:`, drop empty segments, and return `owner/repo` from the last two
segments (the last segment alone, or `"repo"`, when fewer exist). -/
def getRepoIdentifier (repoUrl : String) : String :=
  let cleanUrl :=
    if ".git".data.isSuffixOf repoUrl.data then
      String.mk (repoUrl.data.take (repoUrl.data.length - 4))
    else repoUrl
  let parts := (splitPred (fun c => c = '/' || c = ':') cleanUrl).filter (fun s => s ≠ "")
  match parts.reverse with
  | repo :: owner :: _ => owner ++ "/" ++ repo
  | [repo] => repo
  | [] => "repo"

/-- `branch.replace(/\//g, "-")`: every `/` in the branch name becomes
`-` (a global single-character regex replacement). -/
def safeBranch (branch : String) : String :=
  String.mk (branch.data.map (fun c => if c = '/' then '-' else c))

/-- `getRepoPath`: the deterministic local cache path for a URL and
optional branch. -/
def getRepoPath (repoUrl : String) (branch : Option String) : String :=
  let repoId := getRepoIdentifier repoUrl
  match branch with
  | some b => pathJoin REPOS_DIR (repoId ++ "@" ++ safeBranch b)
  | none => pathJoin REPOS_DIR repoId

/-- The filesystem/VCS view consumed by the clone step: path existence
and the result of `getCurrentBranch` (`git rev-parse --abbrev-ref HEAD`;
`none` models its `null` failure result). -/
structure CloneFS where
  existsSync : String → Bool
  currentBranch : String → Option String

/-- `cloneExists`: a valid cache entry has a `.git` marker directory and,
when a branch was requested, is currently on exactly that branch. -/
def cloneExists (fs : CloneFS) (repoPath : String) (branch : Option String) : Bool :=
  if fs.existsSync (pathJoin repoPath ".git") = false then false
  else
    match branch with
    | some b => decide (fs.currentBranch repoPath = some b)
    | none => true

/-- What a run of `cloneRepoStep` did: reused the existing entry without
any fetch, or performed a fresh shallow clone. -/
inductive CloneAction where
  | reuse
  | freshClone
deriving DecidableEq, Repr

/-- The decision core of `cloneRepoStep.execute`: derive the path; when a
valid entry is already there, return it immediately with no fetch and no
filesystem change; otherwise a fresh shallow clone is performed (any
stale entry first removed). -/
def cloneRepoStep (fs : CloneFS) (repoUrl : String) (branch : Option String) :
    String × CloneAction :=
  let repoPath := getRepoPath repoUrl branch
  if cloneExists fs repoPath branch then (repoPath, .reuse)
  else (repoPath, .freshClone)

/-! ## Documentation search (docs tools module) -/

/-- One documentation file: its path relative to the docs root and its
raw content. -/
structure DocFile where
  relativePath : String
  content : String

/-- The line list of a documentation file (`content.split("\n")`); never
empty. -/
def docLines (f : DocFile) : List String :=
  splitChar '\n' f.content

/-- One matching line in `searchDocsTool`'s output. -/
structure DocMatch where
  line : Nat
  content : String
deriving DecidableEq, Repr

/-- One per-file result in `searchDocsTool`'s output. -/
structure DocResult where
  file : String
  «matches» : List DocMatch
  score : Nat
deriving DecidableEq, Repr

/-- Result record of `searchDocsTool`. -/
structure SearchDocsOutput where
  results : List DocResult
  totalMatches : Nat
deriving DecidableEq, Repr

/-- JS `query.split(/\s+/)`: split on maximal whitespace runs.  A leading
run contributes a leading empty field and a trailing run a trailing empty
field; the empty string yields `[""]`; interior runs collapse to single
boundaries. -/
def splitWsRuns (s : String) : List String :=
  if s.data = [] then [""]
  else
    (if (s.data.head?.map Char.isWhitespace).getD false then [""] else [])
      ++ ((splitCharAux Char.isWhitespace s.data []).map String.mk).filter (fun w => w ≠ "")
      ++ (if (s.data.getLast?.map Char.isWhitespace).getD false then [""] else [])

/-- `query.toLowerCase().split(/\s+/)` — the search terms of
`searchDocsTool`. -/
def searchTermsOf (query : String) : List String :=
  splitWsRuns (jsToLower query)

/-- The matching lines of one file: line `i` (1-based in the output)
matches when its lowercased text contains any search term; each stored
content is the line cut to 200 characters.  This is the uncapped list the
per-file `score` is taken from; the returned `matches` are its first 5
entries. -/
def fileMatches (terms : List String) (lines : List String) : List DocMatch :=
  lines.enum.filterMap (fun p =>
    if terms.any (fun term => jsIncludes (jsToLower p.2) term) then
      some ⟨p.1 + 1, jsTake 200 p.2⟩
    else none)

/-- The unsorted, uncapped per-file results of `searchDocsTool`: one
entry per file with at least one matching line. -/
def docResultsAll (terms : List String) (files : List DocFile) : List DocResult :=
  files.filterMap (fun f =>
    let ms := fileMatches terms (docLines f)
    if ms.length > 0 then some ⟨f.relativePath, ms.take 5, ms.length⟩ else none)

/-- The core of `searchDocsTool.execute` once a docs root was found:
collect per-file results, sort by score descending
(`results.sort((a, b) => b.score - a.score)`), return the top
`maxResults`, and sum every matching file's score into `totalMatches`. -/
def searchDocsCore (files : List DocFile) (query : String) (maxResults : Nat) :
    SearchDocsOutput :=
  let terms := searchTermsOf query
  let results := docResultsAll terms files
  let sorted := results.mergeSort (fun a b => decide (b.score ≤ a.score))
  ⟨sorted.take maxResults, (sorted.map (fun r => r.score)).sum⟩

/-- The `searchDocsTool.execute` body: `docs = none` models the
missing-docs-root branch, which returns the empty result. -/
def searchDocsTool (docs : Option (List DocFile)) (query : String)
    (maxResults : Nat) : SearchDocsOutput :=
  match docs with
  | none => ⟨[], 0⟩
  | some files => searchDocsCore files query maxResults

/-! ## Helper lemmas -/

theorem string_append_cancel_left {a b c : String} (h : a ++ b = a ++ c) : b = c := by
  apply String.ext
  have hd := congrArg String.data h
  rw [String.data_append, String.data_append] at hd
  exact List.append_cancel_left hd

/-! ## Claims about the repository cache manager -/

/-- Claim C7: when the derived path already holds a valid entry (the
version-control marker exists and, when a branch was requested, the
current branch equals it), `cloneRepoStep` returns that same derived path
immediately and performs no fetch, so a second resolution with no
external change is a pure reuse. -/
theorem cloneRepoStep_reuses_valid_entry (fs : CloneFS) (repoUrl : String)
    (branch : Option String)
    (h : cloneExists fs (getRepoPath repoUrl branch) branch = true) :
    cloneRepoStep fs repoUrl branch = (getRepoPath repoUrl branch, CloneAction.reuse) := by
  simp only [cloneRepoStep, h, if_true]

theorem cloneRepoStep_reuses_valid_entry_witness :
    cloneExists ⟨fun _ => true, fun _ => some "main"⟩
        (getRepoPath "https://github.com/user/repo" (some "main")) (some "main") = true ∧
      cloneRepoStep ⟨fun _ => true, fun _ => some "main"⟩
          "https://github.com/user/repo" (some "main") =
        (getRepoPath "https://github.com/user/repo" (some "main"), CloneAction.reuse) :=
  ⟨by decide, cloneRepoStep_reuses_valid_entry ⟨fun _ => true, fun _ => some "main"⟩
    "https://github.com/user/repo" (some "main") (by decide)⟩

/-- Claim C2 counterexample: the branch sanitisation replaces `/` by `-`,
so the two distinct branch names `a/b` and `a-b` of one repository derive
the same local cache path — two branches of one repository can collide on
disk. -/
theorem getRepoPath_branch_collision :
    getRepoPath "https://github.com/user/repo" (some "a/b") =
        getRepoPath "https://github.com/user/repo" (some "a-b") ∧
      ("a/b" : String) ≠ "a-b" :=
  ⟨rfl, by decide⟩

/-- Claim C2 (amended): the derived cache path is a deterministic
function of URL and optional branch; a branch-qualified path never
collides with the branch-free path of the same repository; and two
requested branches yield distinct paths whenever their sanitised forms
(`/` replaced by `-`) differ — branches whose sanitised forms coincide
(such as `a/b` and `a-b`) do collide. -/
theorem getRepoPath_deterministic_and_sanitised_distinct (repoUrl b1 b2 : String)
    (h : safeBranch b1 ≠ safeBranch b2) :
    (∀ (u v : String) (c d : Option String), u = v → c = d →
        getRepoPath u c = getRepoPath v d) ∧
      getRepoPath repoUrl (some b1) ≠ getRepoPath repoUrl (some b2) ∧
      getRepoPath repoUrl (some b1) ≠ getRepoPath repoUrl none := by
  refine ⟨fun u v c d hu hc => by rw [hu, hc], ?_, ?_⟩
  · intro heq
    apply h
    simp only [getRepoPath, pathJoin] at heq
    have h1 := string_append_cancel_left heq
    exact string_append_cancel_left h1
  · intro heq
    simp only [getRepoPath, pathJoin] at heq
    have h1 := string_append_cancel_left heq
    have hlen := congrArg String.length h1
    rw [String.length_append, String.length_append] at hlen
    have : ("@" : String).length = 1 := rfl
    omega

theorem getRepoPath_deterministic_and_sanitised_distinct_witness :
    safeBranch "main" ≠ safeBranch "dev" ∧
      ((∀ (u v : String) (c d : Option String), u = v → c = d →
          getRepoPath u c = getRepoPath v d) ∧
        getRepoPath "https://github.com/user/repo" (some "main") ≠
          getRepoPath "https://github.com/user/repo" (some "dev") ∧
        getRepoPath "https://github.com/user/repo" (some "main") ≠
          getRepoPath "https://github.com/user/repo" none) :=
  ⟨by decide, getRepoPath_deterministic_and_sanitised_distinct
    "https://github.com/user/repo" "main" "dev" (by decide)⟩

/-! ## Claims about globTool and listTool -/

/-- Claim C3 counterexample: with exactly 100 qualifying files, `listTool`
returns all 100 of them yet reports `truncated = true` (its check is
`files.length >= limit`), so `truncated` is not equivalent to "more
qualifying items existed than were returned". -/
theorem listTool_truncated_overreports_at_100 :
    (listFromCandidates (List.replicate 100 "f")).truncated = true ∧
      (listFromCandidates (List.replicate 100 "f")).files = List.replicate 100 "f" ∧
      (listFromCandidates (List.replicate 100 "f")).fileCount =
        (List.replicate 100 "f").length := by
  refine ⟨by decide, by decide, by decide⟩

/-- Claim C3 (amended): for `globTool` the reported `count` equals the
number of returned files and `truncated` is true iff more qualifying
(post-ignore-filter) files existed than were returned; for `listTool` the
reported `fileCount` equals the number of retained files, but `truncated`
is true iff at least 100 qualifying files existed — which overreports
exactly when 100 qualifying files exist and all 100 are returned. -/
theorem search_list_truncation_caps (searchDir : String) (mtime : String → Int)
    (primary : Except Unit SpawnRes) (findRes : SpawnRes) (candidates : List String) :
    ((globExecute searchDir mtime (.ok (primary, findRes))).truncated = true ↔
        (globIgnoreFilter searchDir (globRawFiles searchDir primary findRes)).length >
          (globExecute searchDir mtime (.ok (primary, findRes))).files.length) ∧
      (globExecute searchDir mtime (.ok (primary, findRes))).count =
        (globExecute searchDir mtime (.ok (primary, findRes))).files.length ∧
      (listFromCandidates candidates).fileCount =
        (listFromCandidates candidates).files.length ∧
      ((listFromCandidates candidates).truncated = true ↔ candidates.length ≥ 100) := by
  refine ⟨?_, rfl, rfl, ?_⟩
  · simp only [globExecute, globPipeline, List.length_take, List.length_mergeSort,
      decide_eq_true_eq, inf_eq_min]
    omega
  · simp only [listFromCandidates, List.length_take, decide_eq_true_eq, inf_eq_min]
    omega

/-- Claim C4 counterexample: a primary ripgrep invocation that runs and
fails (exit status 2) returns a result rather than throwing, so the
`catch`-block `find` fallback never runs: `globTool` yields the empty
result even though the fallback backend had a match to offer. -/
theorem glob_no_fallback_on_primary_failure :
    globExecute "d" (fun _ => 0) (.ok (.ok ⟨some 2, ""⟩, ⟨some 0, "a.txt"⟩)) =
        ⟨[], 0, false⟩ ∧
      parseFindStdout "a.txt" = ["a.txt"] := by
  constructor
  · simp [globExecute, globPipeline, globRawFiles, globIgnoreFilter, List.mergeSort_nil]
  · decide

/-- Claim C4 (amended): the `find` fallback of `globTool` runs only when
the primary invocation throws an exception; when the primary call returns
a result — including any failing or unavailable status — the fallback
outcome is never consulted and a non-zero status yields an empty file
list.  When the primary call does throw, the fallback's successful output
is used. -/
theorem glob_fallback_only_on_thrown_primary (searchDir : String)
    (r f1 f2 findRes : SpawnRes) :
    globRawFiles searchDir (.ok r) f1 = globRawFiles searchDir (.ok r) f2 ∧
      (r.status ≠ some 0 → globRawFiles searchDir (.ok r) findRes = []) ∧
      globRawFiles searchDir (.error ()) findRes =
        (if findRes.status = some 0 ∧ findRes.stdout ≠ "" then
          parseFindStdout findRes.stdout
        else []) := by
  refine ⟨rfl, fun h => ?_, rfl⟩
  simp [globRawFiles, h]

theorem glob_fallback_only_on_thrown_primary_witness :
    (⟨some 2, ""⟩ : SpawnRes).status ≠ some 0 ∧
      globRawFiles "d" (.ok ⟨some 2, ""⟩) ⟨some 0, "a.txt"⟩ = [] :=
  ⟨by decide, (glob_fallback_only_on_thrown_primary "d" ⟨some 2, ""⟩ ⟨some 0, "a.txt"⟩
    ⟨some 0, "a.txt"⟩ ⟨some 0, "a.txt"⟩).2.1 (by decide)⟩

/-- Claim C9: the file list returned by `globTool` is ordered by
modification time, descending, and a thrown backend error produces the
empty result with `truncated = false` instead of propagating. -/
theorem glob_mtime_order_and_soft_failure (searchDir : String) (mtime : String → Int)
    (outcome : Except Unit (Except Unit SpawnRes × SpawnRes)) :
    List.Pairwise (fun a b => mtime b ≤ mtime a)
        (globExecute searchDir mtime outcome).files ∧
      globExecute searchDir mtime (.error ()) = ⟨[], 0, false⟩ := by
  refine ⟨?_, rfl⟩
  match outcome with
  | .error _ => simp [globExecute]
  | .ok (primary, findRes) =>
    simp only [globExecute, globPipeline]
    apply List.Pairwise.sublist (List.take_sublist _ _)
    have htrans : ∀ a b c : String,
        (fun a b => decide (mtime b ≤ mtime a)) a b = true →
        (fun a b => decide (mtime b ≤ mtime a)) b c = true →
        (fun a b => decide (mtime b ≤ mtime a)) a c = true := by
      intro a b c hab hbc
      simp only [decide_eq_true_eq] at *
      exact le_trans hbc hab
    have htotal : ∀ a b : String,
        ((fun a b => decide (mtime b ≤ mtime a)) a b
          || (fun a b => decide (mtime b ≤ mtime a)) b a) = true := by
      intro a b
      simp only [Bool.or_eq_true, decide_eq_true_eq]
      exact le_total _ _
    have hs := List.sorted_mergeSort htrans htotal
      ((globIgnoreFilter searchDir (globRawFiles searchDir primary findRes)).take (100 * 2))
    exact hs.imp (fun h => by simpa using h)

/-! ## Claim about grepTool -/

/-- Claim C6: ripgrep exit status 1 ("no matches") yields the empty
result, not an error; any other non-zero or unavailable (`null`) status
routes to the `grep` fallback; the fallback's argument list carries the
same `include` filter and reapplies no ignore-list exclusion, while the
primary argument list contains one exclusion glob per ignore pattern. -/
theorem grep_status_routing_and_fallback_args (mtime : String → Int)
    (rgRes grepRes : SpawnRes) (pattern searchDir : String) (include? : Option String) :
    (rgRes.status = some 1 → grepExecute mtime rgRes grepRes = ⟨[], 0, false⟩) ∧
      (rgRes.status ≠ some 1 → rgRes.status ≠ some 0 →
        grepExecute mtime rgRes grepRes = grepFallbackCompute grepRes) ∧
      grepFallbackArgs pattern none searchDir = ["-rn", "-E", pattern, searchDir] ∧
      (∀ inc : String, grepFallbackArgs pattern (some inc) searchDir =
        ["-rn", "-E", pattern, "--include", inc, searchDir]) ∧
      (∀ ig ∈ IGNORE_PATTERNS, ("!" ++ ig ++ "*") ∈ rgGrepArgs pattern include? searchDir) := by
  refine ⟨fun h => ?_, fun h1 h0 => ?_, rfl, fun inc => rfl, fun ig hig => ?_⟩
  · simp [grepExecute, h]
  · simp [grepExecute, h1, h0]
  · simp only [rgGrepArgs, List.mem_append, List.mem_flatMap]
    exact Or.inl (Or.inr ⟨ig, hig, by simp⟩)

theorem grep_status_routing_and_fallback_args_witness :
    grepExecute (fun _ => 0) ⟨some 1, ""⟩ ⟨some 0, "f:3:x"⟩ = ⟨[], 0, false⟩ ∧
      grepExecute (fun _ => 0) ⟨none, ""⟩ ⟨some 0, "f:3:x"⟩ =
        grepFallbackCompute ⟨some 0, "f:3:x"⟩ ∧
      ("!node_modules/*" : String) ∈ rgGrepArgs "p" none "d" :=
  ⟨(grep_status_routing_and_fallback_args (fun _ => 0) ⟨some 1, ""⟩ ⟨some 0, "f:3:x"⟩
      "p" "d" none).1 rfl,
    (grep_status_routing_and_fallback_args (fun _ => 0) ⟨none, ""⟩ ⟨some 0, "f:3:x"⟩
      "p" "d" none).2.1 (by decide) (by decide),
    by
      have h := (grep_status_routing_and_fallback_args (fun _ => 0) ⟨none, ""⟩
        ⟨some 0, "f:3:x"⟩ "p" "d" none).2.2.2.2 "node_modules/" (by decide)
      simpa using h⟩

/-! ## Claims about readTool -/

theorem readTool_success_eval (fs : ReadFS) (cwd filePath resolved : String)
    (lines : List String) (offset limit : Nat)
    (hres : (if isAbsolutePath filePath then filePath else pathJoin cwd filePath) = resolved)
    (hlines : fileLines (fs.readFileSync resolved) = lines)
    (hex : fs.existsSync resolved = true)
    (hsz : fs.statSize resolved ≤ 10 * 1024 * 1024) :
    readTool fs cwd filePath offset limit =
      .ok ⟨renderReadOutput offset (selectedLines lines offset limit) lines.length
            (decide (lines.length > offset + (selectedLines lines offset limit).length)),
          lines.length,
          decide (lines.length > offset + (selectedLines lines offset limit).length)⟩ := by
  simp only [readTool, hres, hlines, hex]
  rw [if_neg (by simp), if_neg (by omega)]

/-- Claim C1: on an existing, size-admissible file whose content splits
into `N ≤ 2000` lines, `readTool` with `offset = 0`, `limit = 2000`
returns all `N` lines (each subject only to per-line truncation) with
`totalLines = N` and `hasMore = false`; and for every offset and limit,
`hasMore` is true iff `totalLines` exceeds `offset` plus the number of
lines actually returned. -/
theorem read_window_and_hasMore (fs : ReadFS) (cwd filePath resolved : String)
    (lines : List String) (offset limit : Nat)
    (hres : (if isAbsolutePath filePath then filePath else pathJoin cwd filePath) = resolved)
    (hlines : fileLines (fs.readFileSync resolved) = lines)
    (hex : fs.existsSync resolved = true)
    (hsz : fs.statSize resolved ≤ 10 * 1024 * 1024) :
    (lines.length ≤ 2000 →
      selectedLines lines 0 2000 = lines.map truncLine ∧
      readTool fs cwd filePath 0 2000 =
        .ok ⟨renderReadOutput 0 (lines.map truncLine) lines.length false,
            lines.length, false⟩) ∧
      ∃ r, readTool fs cwd filePath offset limit = .ok r ∧
        r.totalLines = lines.length ∧
        r.hasMore = decide (lines.length > offset + (selectedLines lines offset limit).length) := by
  constructor
  · intro h2000
    have hsel : selectedLines lines 0 2000 = lines.map truncLine := by
      simp [selectedLines, List.take_of_length_le h2000]
    have hHM : decide (lines.length > 0 + (selectedLines lines 0 2000).length) = false := by
      rw [hsel]
      simp
    refine ⟨hsel, ?_⟩
    rw [readTool_success_eval fs cwd filePath resolved lines 0 2000 hres hlines hex hsz,
      hsel]
    simp
  · exact ⟨_, readTool_success_eval fs cwd filePath resolved lines offset limit
      hres hlines hex hsz, rfl, rfl⟩

theorem read_window_and_hasMore_witness :
    ((["a", "b"] : List String).length ≤ 2000) ∧
      readTool ⟨fun p => p == "/f.txt", fun _ => [], fun _ => 0, fun _ => "a\nb"⟩
          "/" "/f.txt" 0 2000 =
        .ok ⟨renderReadOutput 0 ((["a", "b"] : List String).map truncLine) 2 false,
            2, false⟩ := by
  refine ⟨by decide, ?_⟩
  exact ((read_window_and_hasMore
    ⟨fun p => p == "/f.txt", fun _ => [], fun _ => 0, fun _ => "a\nb"⟩
    "/" "/f.txt" "/f.txt" ["a", "b"] 0 2000
    (by decide) (by decide) (by decide) (by decide)).1 (by decide)).2

/-- Claim C8: a read of an absent file is a hard `NotFound` failure; when
the containing directory exists, the failure carries at most 3 sibling
suggestions, each an entry of that directory selected by case-insensitive
substring match (in either direction) against the requested base name;
when the directory is absent too, the suggestion list is empty. -/
theorem readTool_notFound_suggestions (fs : ReadFS) (cwd filePath resolved : String)
    (offset limit : Nat)
    (hres : (if isAbsolutePath filePath then filePath else pathJoin cwd filePath) = resolved)
    (hex : fs.existsSync resolved = false) :
    ∃ suggs, readTool fs cwd filePath offset limit = .error (.notFound resolved suggs) ∧
      suggs.length ≤ 3 ∧
      (fs.existsSync (pathDirname resolved) = false → suggs = []) ∧
      (fs.existsSync (pathDirname resolved) = true →
        suggs = readSuggestions fs (pathDirname resolved) (jsToLower (pathBasename resolved)) ∧
        ∀ s ∈ suggs, ∃ entry ∈ fs.readdirSync (pathDirname resolved),
          s = pathJoin (pathDirname resolved) entry ∧
          (jsIncludes (jsToLower entry) (jsToLower (pathBasename resolved))
            || jsIncludes (jsToLower (pathBasename resolved)) (jsToLower entry)) = true) := by
  by_cases hdir : fs.existsSync (pathDirname resolved) = true
  · refine ⟨readSuggestions fs (pathDirname resolved) (jsToLower (pathBasename resolved)),
      ?_, ?_, ?_, ?_⟩
    · simp only [readTool, hres, hex]
      simp [hdir]
    · simp only [readSuggestions, List.length_map, List.length_take, inf_eq_min]
      omega
    · intro habs
      rw [hdir] at habs
      cases habs
    · intro _
      refine ⟨rfl, fun s hs => ?_⟩
      simp only [readSuggestions, List.mem_map] at hs
      obtain ⟨entry, hmem, hjoin⟩ := hs
      have hment : entry ∈ (fs.readdirSync (pathDirname resolved)).filter (fun e =>
          jsIncludes (jsToLower e) (jsToLower (pathBasename resolved))
            || jsIncludes (jsToLower (pathBasename resolved)) (jsToLower e)) :=
        List.take_subset 3 _ hmem
      rw [List.mem_filter] at hment
      exact ⟨entry, hment.1, hjoin.symm, hment.2⟩
  · rw [Bool.not_eq_true] at hdir
    refine ⟨[], ?_, by simp, fun _ => rfl, fun habs => ?_⟩
    · simp only [readTool, hres, hex]
      simp [hdir]
    · rw [hdir] at habs
      cases habs

theorem readTool_notFound_suggestions_witness :
    ((⟨fun p => p == "/d", fun _ => ["File.txt", "zzz"], fun _ => 0, fun _ => ""⟩ :
        ReadFS).existsSync "/d/file.txt" = false) ∧
      readTool ⟨fun p => p == "/d", fun _ => ["File.txt", "zzz"], fun _ => 0, fun _ => ""⟩
          "/" "/d/file.txt" 0 2000 =
        .error (.notFound "/d/file.txt" ["/d/File.txt"]) := by
  refine ⟨by decide, ?_⟩
  obtain ⟨suggs, hr, _, _, hdir⟩ := readTool_notFound_suggestions
    ⟨fun p => p == "/d", fun _ => ["File.txt", "zzz"], fun _ => 0, fun _ => ""⟩
    "/" "/d/file.txt" "/d/file.txt" 0 2000 (by decide) (by decide)
  obtain ⟨hsu, -⟩ := hdir (by decide)
  rw [hr, hsu]
  congr 1

/-! ## Claims about searchDocsTool -/

theorem fileMatches_content_le (terms lines : List String) :
    ∀ m ∈ fileMatches terms lines, m.content.length ≤ 200 := by
  intro m hm
  simp only [fileMatches, List.mem_filterMap] at hm
  obtain ⟨p, -, hp⟩ := hm
  split at hp
  · cases hp
    simp only [jsTake, String.length, List.length_take, inf_eq_min]
    omega
  · cases hp

theorem docResultsAll_cons (terms : List String) (f : DocFile) (fs : List DocFile) :
    docResultsAll terms (f :: fs) =
      (if (fileMatches terms (docLines f)).length > 0 then
        (⟨f.relativePath, (fileMatches terms (docLines f)).take 5,
          (fileMatches terms (docLines f)).length⟩ : DocResult) :: docResultsAll terms fs
      else docResultsAll terms fs) := by
  by_cases hP : (fileMatches terms (docLines f)).length > 0
  · simp only [docResultsAll, List.filterMap_cons, if_pos hP]
  · simp only [docResultsAll, List.filterMap_cons, if_neg hP]

theorem sum_score_docResultsAll (terms : List String) (files : List DocFile) :
    ((docResultsAll terms files).map (fun r => r.score)).sum =
      (files.map (fun f => (fileMatches terms (docLines f)).length)).sum := by
  induction files with
  | nil => rfl
  | cons f fs ih =>
    rw [docResultsAll_cons]
    by_cases hP : (fileMatches terms (docLines f)).length > 0
    · rw [if_pos hP]
      simp only [List.map_cons, List.sum_cons, ih]
    · rw [if_neg hP]
      have hz : (fileMatches terms (docLines f)).length = 0 := by omega
      simp only [List.map_cons, List.sum_cons, hz, ih, Nat.zero_add]

/-- Claim C5: every result of `searchDocsTool` caps its returned matching
lines at 5 (each truncated to 200 characters) while its `score` is the
file's total uncapped matching-line count; results are ordered by
descending score; at most `maxResults` files are returned; and
`totalMatches` is the sum of the scores of all matching files, including
those beyond the top `maxResults`. -/
theorem searchDocs_scoring (files : List DocFile) (query : String) (maxResults : Nat) :
    (∀ r ∈ (searchDocsTool (some files) query maxResults).results,
        ∃ f ∈ files, r.file = f.relativePath ∧
          r.«matches» = (fileMatches (searchTermsOf query) (docLines f)).take 5 ∧
          r.score = (fileMatches (searchTermsOf query) (docLines f)).length) ∧
      (∀ r ∈ (searchDocsTool (some files) query maxResults).results,
        r.«matches».length ≤ 5 ∧ ∀ m ∈ r.«matches», m.content.length ≤ 200) ∧
      List.Pairwise (fun a b : DocResult => b.score ≤ a.score)
        (searchDocsTool (some files) query maxResults).results ∧
      (searchDocsTool (some files) query maxResults).results.length ≤ maxResults ∧
      (searchDocsTool (some files) query maxResults).totalMatches =
        (files.map (fun f => (fileMatches (searchTermsOf query) (docLines f)).length)).sum := by
  have hmem : ∀ r ∈ (searchDocsTool (some files) query maxResults).results,
      ∃ f ∈ files, r.file = f.relativePath ∧
        r.«matches» = (fileMatches (searchTermsOf query) (docLines f)).take 5 ∧
        r.score = (fileMatches (searchTermsOf query) (docLines f)).length := by
    intro r hr
    simp only [searchDocsTool, searchDocsCore] at hr
    have hr1 : r ∈ (docResultsAll (searchTermsOf query) files).mergeSort
        (fun a b => decide (b.score ≤ a.score)) := List.take_subset _ _ hr
    have hr2 : r ∈ docResultsAll (searchTermsOf query) files :=
      (List.mergeSort_perm _ _).subset hr1
    simp only [docResultsAll, List.mem_filterMap] at hr2
    obtain ⟨f, hf, hEq⟩ := hr2
    split at hEq
    · cases hEq
      exact ⟨f, hf, rfl, rfl, rfl⟩
    · cases hEq
  refine ⟨hmem, ?_, ?_, ?_, ?_⟩
  · intro r hr
    obtain ⟨f, -, -, hms, -⟩ := hmem r hr
    constructor
    · rw [hms]
      simp only [List.length_take, inf_eq_min]
      omega
    · intro m hmm
      rw [hms] at hmm
      exact fileMatches_content_le _ _ m (List.take_subset _ _ hmm)
  · simp only [searchDocsTool, searchDocsCore]
    apply List.Pairwise.sublist (List.take_sublist _ _)
    have htrans : ∀ a b c : DocResult,
        (fun a b : DocResult => decide (b.score ≤ a.score)) a b = true →
        (fun a b : DocResult => decide (b.score ≤ a.score)) b c = true →
        (fun a b : DocResult => decide (b.score ≤ a.score)) a c = true := by
      intro a b c hab hbc
      simp only [decide_eq_true_eq] at *
      omega
    have htotal : ∀ a b : DocResult,
        ((fun a b : DocResult => decide (b.score ≤ a.score)) a b
          || (fun a b : DocResult => decide (b.score ≤ a.score)) b a) = true := by
      intro a b
      simp only [Bool.or_eq_true, decide_eq_true_eq]
      omega
    have hs := List.sorted_mergeSort htrans htotal (docResultsAll (searchTermsOf query) files)
    exact hs.imp (fun h => by simpa using h)
  · simp only [searchDocsTool, searchDocsCore, List.length_take, inf_eq_min]
    omega
  · simp only [searchDocsTool, searchDocsCore]
    have hperm := (List.mergeSort_perm (docResultsAll (searchTermsOf query) files)
      (fun a b => decide (b.score ≤ a.score))).map (fun r => r.score)
    rw [hperm.sum_eq]
    exact sum_score_docResultsAll _ _

theorem searchDocs_scoring_witness :
    (∀ r ∈ (searchDocsTool (some [⟨"a.md", "agent\nagent\nx"⟩]) "agent" 10).results,
        ∃ f ∈ [(⟨"a.md", "agent\nagent\nx"⟩ : DocFile)], r.file = f.relativePath ∧
          r.«matches» = (fileMatches (searchTermsOf "agent") (docLines f)).take 5 ∧
          r.score = (fileMatches (searchTermsOf "agent") (docLines f)).length) ∧
      (∀ r ∈ (searchDocsTool (some [⟨"a.md", "agent\nagent\nx"⟩]) "agent" 10).results,
        r.«matches».length ≤ 5 ∧ ∀ m ∈ r.«matches», m.content.length ≤ 200) ∧
      List.Pairwise (fun a b : DocResult => b.score ≤ a.score)
        (searchDocsTool (some [⟨"a.md", "agent\nagent\nx"⟩]) "agent" 10).results ∧
      (searchDocsTool (some [⟨"a.md", "agent\nagent\nx"⟩]) "agent" 10).results.length ≤ 10 ∧
      (searchDocsTool (some [⟨"a.md", "agent\nagent\nx"⟩]) "agent" 10).totalMatches =
        ([(⟨"a.md", "agent\nagent\nx"⟩ : DocFile)].map
          (fun f => (fileMatches (searchTermsOf "agent") (docLines f)).length)).sum :=
  searchDocs_scoring [⟨"a.md", "agent\nagent\nx"⟩] "agent" 10

theorem toLower_of_isWhitespace {c : Char} (h : c.isWhitespace = true) :
    c.toLower = c := by
  simp only [Char.isWhitespace, Bool.or_eq_true, decide_eq_true_eq] at h
  rcases h with ((h | h) | h) | h <;> subst h <;> decide

theorem splitCharAux_ne_nil (p : Char → Bool) (l acc : List Char) :
    splitCharAux p l acc ≠ [] := by
  induction l generalizing acc with
  | nil => simp [splitCharAux]
  | cons c cs ih =>
    simp only [splitCharAux]
    split
    · simp
    · exact ih _

theorem docLines_length_pos (f : DocFile) : 0 < (docLines f).length := by
  have h := splitCharAux_ne_nil (fun c => c = '\n') f.content.data []
  simp only [docLines, splitChar, List.length_map]
  exact List.length_pos.mpr h

theorem filterMap_if_all {α β : Type} (g : α → β) (cond : α → Bool) (l : List α)
    (h : ∀ a ∈ l, cond a = true) :
    l.filterMap (fun a => if cond a then some (g a) else none) = l.map g := by
  induction l with
  | nil => rfl
  | cons a as ih =>
    rw [List.filterMap_cons, if_pos (h a (List.mem_cons_self a as)), List.map_cons,
      ih (fun b hb => h b (List.mem_cons_of_mem a hb))]

theorem empty_mem_searchTerms (query : String)
    (h : query = "" ∨ (query.data.head?.map Char.isWhitespace).getD false = true
      ∨ (query.data.getLast?.map Char.isWhitespace).getD false = true) :
    "" ∈ searchTermsOf query := by
  rcases h with h | h | h
  · subst h
    decide
  · obtain ⟨c, hc, hw⟩ : ∃ c, query.data.head? = some c ∧ c.isWhitespace = true := by
      cases hq : query.data.head? with
      | none => rw [hq] at h; cases h
      | some c => rw [hq] at h; exact ⟨c, rfl, by simpa using h⟩
    have hqne : query.data ≠ [] := by
      intro habs
      rw [habs] at hc
      cases hc
    have hne : (jsToLower query).data ≠ [] := by
      simp only [jsToLower]
      simpa using hqne
    have hhd : (jsToLower query).data.head? = some c := by
      simp only [jsToLower, List.head?_map, hc]
      simp [toLower_of_isWhitespace hw]
    have hcond : ((jsToLower query).data.head?.map Char.isWhitespace).getD false = true := by
      rw [hhd]
      simpa using hw
    simp [searchTermsOf, splitWsRuns, hne, hcond]
  · obtain ⟨c, hc, hw⟩ : ∃ c, query.data.getLast? = some c ∧ c.isWhitespace = true := by
      cases hq : query.data.getLast? with
      | none => rw [hq] at h; cases h
      | some c => rw [hq] at h; exact ⟨c, rfl, by simpa using h⟩
    have hqne : query.data ≠ [] := by
      intro habs
      rw [habs] at hc
      cases hc
    have hne : (jsToLower query).data ≠ [] := by
      simp only [jsToLower]
      simpa using hqne
    have hlast : (jsToLower query).data.getLast? = some c := by
      simp only [jsToLower, List.getLast?_map, hc]
      simp [toLower_of_isWhitespace hw]
    have hcond : ((jsToLower query).data.getLast?.map Char.isWhitespace).getD false = true := by
      rw [hlast]
      simpa using hw
    simp [searchTermsOf, splitWsRuns, hne, hcond]

theorem any_term_of_empty_mem {terms : List String} (h : "" ∈ terms) (x : String) :
    terms.any (fun term => jsIncludes x term) = true :=
  List.any_eq_true.mpr ⟨"", h, decide_eq_true List.nil_infix⟩

theorem fileMatches_length_of_empty_mem {terms : List String} (h : "" ∈ terms)
    (lines : List String) : (fileMatches terms lines).length = lines.length := by
  rw [fileMatches, filterMap_if_all (fun p => (⟨p.1 + 1, jsTake 200 p.2⟩ : DocMatch))
    (fun p => terms.any (fun term => jsIncludes (jsToLower p.2) term)) lines.enum
    (fun p _ => any_term_of_empty_mem h (jsToLower p.2))]
  rw [List.length_map, List.enum_length]

/-- Claim C10: a query that is empty or begins or ends with whitespace
tokenises to a term list containing the empty string; every line contains
the empty string, so every line of every doc file matches and every doc
file is reported as matching with `score` equal to its total line count,
making `totalMatches` the total number of lines of all doc files. -/
theorem searchDocs_whitespace_query (files : List DocFile) (query : String)
    (maxResults : Nat)
    (h : query = "" ∨ (query.data.head?.map Char.isWhitespace).getD false = true
      ∨ (query.data.getLast?.map Char.isWhitespace).getD false = true) :
    "" ∈ searchTermsOf query ∧
      (∀ f ∈ files, (fileMatches (searchTermsOf query) (docLines f)).length =
        (docLines f).length) ∧
      (docResultsAll (searchTermsOf query) files).map (fun r => (r.file, r.score)) =
        files.map (fun f => (f.relativePath, (docLines f).length)) ∧
      (searchDocsTool (some files) query maxResults).totalMatches =
        (files.map (fun f => (docLines f).length)).sum := by
  have hmem := empty_mem_searchTerms query h
  have hlen : ∀ lines : List String,
      (fileMatches (searchTermsOf query) lines).length = lines.length :=
    fileMatches_length_of_empty_mem hmem
  refine ⟨hmem, fun f _ => hlen _, ?_, ?_⟩
  · induction files with
    | nil => rfl
    | cons f fs ih =>
      rw [docResultsAll_cons, if_pos (by rw [hlen]; exact docLines_length_pos f),
        List.map_cons, List.map_cons, ih]
      rw [hlen]
  · simp only [searchDocsTool, searchDocsCore]
    have hperm := (List.mergeSort_perm (docResultsAll (searchTermsOf query) files)
      (fun a b => decide (b.score ≤ a.score))).map (fun r => r.score)
    rw [hperm.sum_eq, sum_score_docResultsAll]
    congr 1
    exact List.map_congr_left (fun f _ => hlen _)

theorem searchDocs_whitespace_query_witness :
    (((" x" : String) = "" ∨
        ((" x" : String).data.head?.map Char.isWhitespace).getD false = true ∨
        ((" x" : String).data.getLast?.map Char.isWhitespace).getD false = true) ∧
      ("" ∈ searchTermsOf " x" ∧
        (∀ f ∈ [(⟨"a.md", "p\nq"⟩ : DocFile)],
          (fileMatches (searchTermsOf " x") (docLines f)).length = (docLines f).length) ∧
        (docResultsAll (searchTermsOf " x") [(⟨"a.md", "p\nq"⟩ : DocFile)]).map
            (fun r => (r.file, r.score)) =
          [(⟨"a.md", "p\nq"⟩ : DocFile)].map
            (fun f => (f.relativePath, (docLines f).length)) ∧
        (searchDocsTool (some [(⟨"a.md", "p\nq"⟩ : DocFile)]) " x" 10).totalMatches =
          ([(⟨"a.md", "p\nq"⟩ : DocFile)].map (fun f => (docLines f).length)).sum)) :=
  ⟨Or.inr (Or.inl (by decide)),
    searchDocs_whitespace_query [⟨"a.md", "p\nq"⟩] " x" 10 (Or.inr (Or.inl (by decide)))⟩

end AskAboutRepo
